import Mathlib

set_option maxRecDepth 8000

namespace IdcNode

/-!
Shallow embedding of the idc-node repository core:
telemetry simulation (`ServerStatus`, src/src/main.ts) and the
scene picking / hover / selection logic (`DataCenter`, src/src/DataCenter.ts).

Numbers are modelled as rationals.  Each `Math.random()` draw is passed
in explicitly as an element of an indexed stream `rnd : Nat → ℚ`; a valid
stream has every draw in `[0, 1)`.
-/

/-- Server status enum (`'normal' | 'warning' | 'error'`). -/
inductive Status where
  | normal
  | warning
  | error
deriving DecidableEq, Repr

/-- The `ServerData` interface of src/src/main.ts. -/
structure ServerData where
  id : String
  temperature : ℚ
  cpuUsage : ℚ
  memoryUsage : ℚ
  status : Status
deriving DecidableEq, Repr

/-- The template-literal id `rack${rack}-server${server}`. -/
def mkId (rack srv : Nat) : String :=
  "rack" ++ toString rack ++ "-server" ++ toString srv

/-- The `Math.max(lo, Math.min(hi, x))` clamping pattern of `updateServerStatus`. -/
def clamp (lo hi x : ℚ) : ℚ := max lo (min hi x)

/-- The status threshold cascade of `updateServerStatus` (lines 153-160 of main.ts):
error if temperature>42 or cpu>90 or memory>90, else warning if
temperature>38 or cpu>75 or memory>75, else normal. -/
def computeStatus (t c m : ℚ) : Status :=
  if t > 42 ∨ c > 90 ∨ m > 90 then Status.error
  else if t > 38 ∨ c > 75 ∨ m > 75 then Status.warning
  else Status.normal

/-- One record as built in `initializeServers`:
`temperature = Math.random()*20+25`, `cpuUsage = Math.random()*60+20`,
`memoryUsage = Math.random()*50+30`, `status = 'normal'`. -/
def initialServer (rack srv : Nat) (r1 r2 r3 : ℚ) : ServerData :=
  { id := mkId rack srv
    temperature := r1 * 20 + 25
    cpuUsage := r2 * 60 + 20
    memoryUsage := r3 * 50 + 30
    status := Status.normal }

/-- `initializeServers` (main.ts lines 122-136): 9 racks × 5 servers, in rack-major
order; the k-th created record consumes random draws 3k, 3k+1, 3k+2 (temperature,
cpu, memory, in source order). -/
def initializeServers (rnd : Nat → ℚ) : List ServerData :=
  (List.range 9).flatMap fun rack =>
    (List.range 5).map fun srv =>
      initialServer rack srv
        (rnd ((rack * 5 + srv) * 3))
        (rnd ((rack * 5 + srv) * 3 + 1))
        (rnd ((rack * 5 + srv) * 3 + 2))

/-- The per-record body of `updateServerStatus` (main.ts lines 140-161):
each metric gets a random delta, is clamped to its bounds, and then the
status is recomputed from the clamped metrics. -/
def tickServer (s : ServerData) (r1 r2 r3 : ℚ) : ServerData :=
  let t := clamp 25 45 (s.temperature + (r1 - 1/2) * 2)
  let c := clamp 20 95 (s.cpuUsage + (r2 - 1/2) * 10)
  let m := clamp 30 95 (s.memoryUsage + (r3 - 1/2) * 5)
  { s with temperature := t, cpuUsage := c, memoryUsage := m,
           status := computeStatus t c m }

/-- Iteration of `this.servers.forEach` in `updateServerStatus`: the record at
position k consumes draws 3k, 3k+1, 3k+2 of this tick's stream. -/
def updateFrom (rnd : Nat → ℚ) : Nat → List ServerData → List ServerData
  | _, [] => []
  | k, s :: rest =>
      tickServer s (rnd (3 * k)) (rnd (3 * k + 1)) (rnd (3 * k + 2))
        :: updateFrom rnd (k + 1) rest

/-- `updateServerStatus` (one simulation tick over the whole store). -/
def updateServerStatus (rnd : Nat → ℚ) (servers : List ServerData) : List ServerData :=
  updateFrom rnd 0 servers

/-- Any number of `tick()` calls, each with its own random stream. -/
def ticks : List (Nat → ℚ) → List ServerData → List ServerData
  | [], servers => servers
  | rnd :: rest, servers => ticks rest (updateServerStatus rnd servers)

/-- `getServerData` (main.ts lines 164-166): `this.servers.get(id)` on the map
keyed by record id.  Total: it returns an `Option` and never fails. -/
def getServerData (id : String) (servers : List ServerData) : Option ServerData :=
  servers.find? fun s => s.id == id

/-- The lookup viewed as a call on the store state: result plus the state of
the store after the call (the method only reads, so the state is returned
unchanged). -/
def getServerDataCall (servers : List ServerData) (id : String) :
    Option ServerData × List ServerData :=
  (getServerData id servers, servers)

/-- The canonical id list, rack-major (what `initializeServers` iterates over). -/
def serverIds : List String :=
  (List.range 9).flatMap fun rack => (List.range 5).map fun srv => mkId rack srv

/-- A stream of valid `Math.random()` draws: every value in `[0, 1)`. -/
def ValidRnd (rnd : Nat → ℚ) : Prop := ∀ i, 0 ≤ rnd i ∧ rnd i < 1

/-- A concrete valid random stream used for witnesses. -/
def demoRnd : Nat → ℚ := fun _ => 0

/-- A concrete store used for witnesses. -/
def demoStore : List ServerData := initializeServers demoRnd

/-! ## Scene model (DataCenter.ts)

The three.js object graph is embedded as a list of nodes with parent links
(indices into the list); children appear after their parent, in creation
order.  A ray is embedded as the ordered list of node indices it passes
through, nearest first (`intersectObjects` then filters that list to its
candidate set and the handlers take the head). -/

/-- One scene object: its three.js class (Mesh / Group / other such as the
grid helper), the `userData` tags the source attaches, and its parent. -/
structure SceneNode where
  isMesh : Bool := false
  isGroup : Bool := false
  dataId : Option String := none
  rackIndex : Option Nat := none
  isRackCase : Bool := false
  parent : Option Nat := none
deriving DecidableEq, Repr

/-- Interactive for `handleMouseMove` (DataCenter.ts lines 343-350): a mesh
with `userData.id` or with `userData.isRackCase`. -/
def isInteractive (n : SceneNode) : Bool := n.isMesh && (n.dataId.isSome || n.isRackCase)

/-- Candidate for `handleClick` (lines 398-403): a mesh with `userData.id`. -/
def isServerMesh (n : SceneNode) : Bool := n.isMesh && n.dataId.isSome

/-- Does some strict ancestor of the node satisfy `p`?  Fuel-bounded parent
walk; the scene is a tree, so `nodes.length` fuel always suffices. -/
def ancestorSat (nodes : List SceneNode) (p : SceneNode → Bool) : Nat → Option Nat → Bool
  | 0, _ => false
  | _ + 1, Option.none => false
  | fuel + 1, some i =>
    match nodes.get? i with
    | Option.none => false
    | some n => p n || ancestorSat nodes p fuel n.parent

/-- A node can appear in `raycaster.intersectObjects(interactiveObjects, true)`:
it is itself interactive, or a descendant of an interactive node. -/
def pickableMove (nodes : List SceneNode) (i : Nat) : Bool :=
  match nodes.get? i with
  | Option.none => false
  | some n => isInteractive n || ancestorSat nodes isInteractive nodes.length n.parent

/-- A node can appear in `raycaster.intersectObjects(serverMeshes)` in
`handleClick` (recursive intersection over the meshes with `userData.id`). -/
def pickableClick (nodes : List SceneNode) (i : Nat) : Bool :=
  match nodes.get? i with
  | Option.none => false
  | some n => isServerMesh n || ancestorSat nodes isServerMesh nodes.length n.parent

/-- The `this.servers` map built during `createRack`: id → server mesh index,
in creation (= index) order. -/
def serversMapOf (nodes : List SceneNode) : List (String × Nat) :=
  (List.range nodes.length).filterMap fun i =>
    match nodes.get? i with
    | some n => if n.isMesh then n.dataId.map (fun id => (id, i)) else Option.none
    | Option.none => Option.none

/-- `this.servers.get(id)` on the mesh map. -/
def lookupServer (nodes : List SceneNode) (id : String) : Option Nat :=
  ((serversMapOf nodes).find? fun p => p.1 == id).map Prod.snd

/-- The parent-chain walk of `handleMouseMove` (lines 357-372): starting from
the hit object, follow `parent` links; stop keeping the current target on
reaching a Group with a defined `rackIndex` or the scene top; retarget and
stop at the first parent that is a Mesh with `userData.id`; a Group parent
with `userData.id` retargets to the mapped server mesh when the map lookup
succeeds, else the walk continues. -/
def walkLoop (nodes : List SceneNode) : Nat → Nat → Option Nat → Nat
  | 0, target, _ => target
  | _ + 1, target, Option.none => target
  | fuel + 1, target, some p =>
    match nodes.get? p with
    | Option.none => target
    | some pn =>
      if pn.isGroup && pn.rackIndex.isSome then target
      else if pn.isMesh && pn.dataId.isSome then p
      else if pn.isGroup && pn.dataId.isSome then
        match pn.dataId.bind (lookupServer nodes) with
        | some m => m
        | Option.none => walkLoop nodes fuel target pn.parent
      else walkLoop nodes fuel target pn.parent

/-- The resolution target of a hit: the hit itself, corrected by the walk. -/
def walkTarget (nodes : List SceneNode) (hit : Nat) : Nat :=
  walkLoop nodes nodes.length hit ((nodes.get? hit).bind SceneNode.parent)

/-- The logical `InteractionTarget` of spec §4.2. -/
inductive InteractionTarget where
  | none
  | rack (idx : Nat)
  | server (id : String)
deriving DecidableEq, Repr

/-- Classification of the walk result (lines 374-389): rack case → the parent
rack's index, mesh with id → that server, anything else → no target (in the
source this last case takes no branch and leaves the hover state untouched). -/
def resolveMove (nodes : List SceneNode) (hit : Nat) : InteractionTarget :=
  let t := walkTarget nodes hit
  match nodes.get? t with
  | Option.none => InteractionTarget.none
  | some tn =>
    if tn.isRackCase then
      match tn.parent.bind (fun rp => (nodes.get? rp).bind SceneNode.rackIndex) with
      | some ri => InteractionTarget.rack ri
      | Option.none => InteractionTarget.none
    else
      match tn.dataId with
      | some id => InteractionTarget.server id
      | Option.none => InteractionTarget.none

/-- The first ancestor carrying a `userData.id` tag, if any. -/
def ancestorDataId (nodes : List SceneNode) : Nat → Option Nat → Option String
  | 0, _ => Option.none
  | _ + 1, Option.none => Option.none
  | fuel + 1, some i =>
    match nodes.get? i with
    | Option.none => Option.none
    | some n =>
      match n.dataId with
      | some id => some id
      | Option.none => ancestorDataId nodes fuel n.parent

/-- The id of the server assembly a node is nested inside. -/
def nestedServerId (nodes : List SceneNode) (hit : Nat) : Option String :=
  ancestorDataId nodes nodes.length ((nodes.get? hit).bind SceneNode.parent)

/-- A node with no tag of its own: no `userData.id` and not a rack case. -/
def untaggedNode (nodes : List SceneNode) (i : Nat) : Bool :=
  match nodes.get? i with
  | some n => n.dataId.isNone && !n.isRackCase
  | Option.none => false

/-- The six scene nodes of one server slot created in `createRack`
(lines 236-294): the slot group, the server mesh (tagged with its id), the
indicator light (child of the server mesh), then the brand panel, label
plane and vents (children of the slot group).  `base` is the index of the
enclosing rack group; the slot's nodes start at index `base + 2 + 6*slot`. -/
def serverSlotNodes (rack slot base : Nat) : List SceneNode :=
  [ { isGroup := true, parent := some base },
    { isMesh := true, dataId := some (mkId rack slot), parent := some (base + 2 + 6 * slot) },
    { isMesh := true, parent := some (base + 2 + 6 * slot + 1) },
    { isMesh := true, parent := some (base + 2 + 6 * slot) },
    { isMesh := true, parent := some (base + 2 + 6 * slot) },
    { isMesh := true, parent := some (base + 2 + 6 * slot) } ]

/-- One rack (lines 213-297): the rack group tagged with `rackIndex`, its
case mesh tagged `isRackCase`, then five server slots.  The rack's nodes
start at index `100 + 32*rack`. -/
def rackNodes (rack : Nat) : List SceneNode :=
  { isGroup := true, rackIndex := some rack, parent := some 0 } ::
  { isMesh := true, isRackCase := true, parent := some (100 + 32 * rack) } ::
  (List.range 5).flatMap fun slot => serverSlotNodes rack slot (100 + 32 * rack)

/-- The whole `DataCenter` group as built by the constructor: the root group,
the floor plane, the grid helper (neither mesh nor group), the base plane,
96 untagged pipe meshes (24 main runs + 72 rack connections), then the nine
racks.  Indices: root 0, decorations 1-99, rack k at 100 + 32k. -/
def sceneNodes : List SceneNode :=
  ({ isGroup := true } : SceneNode) ::
  ({ isMesh := true, parent := some 0 } : SceneNode) ::
  ({ parent := some 0 } : SceneNode) ::
  ({ isMesh := true, parent := some 0 } : SceneNode) ::
  (List.replicate 96 ({ isMesh := true, parent := some 0 } : SceneNode)
    ++ (List.range 9).flatMap rackNodes)

/-! ## Interaction state machine (DataCenter.ts) -/

/-- The info-panel views of spec §6. -/
inductive PanelView where
  | rackView (rackIdx : Nat)
  | serverView (id : String)
  | defaultView
deriving DecidableEq, Repr

/-- The visual side effects the handlers perform, in execution order. -/
inductive Effect where
  | rackOpacityReset (caseIdx : Nat)
  | serverWireframeOff (meshIdx : Nat)
  | rackEnter (caseIdx : Nat)
  | serverEnter (meshIdx : Nat)
  | selectOn (meshIdx : Nat)
  | selectOff (meshIdx : Nat)
  | panelRack (rackIdx : Nat)
  | panelServer (id : String)
  | panelDefault
deriving DecidableEq, Repr

/-- The mutable `DataCenter` fields plus the per-mesh material state the
handlers touch: `hoveredRack`/`hoveredServer`/`selectedServer` (object
references become node indices), per-mesh wireframe flags and opacities, the
indicator-light colors, the heatmap temperature uniforms, and the info
panel's content. -/
structure DCState where
  hoveredRack : Option Nat := Option.none
  hoveredServer : Option Nat := Option.none
  selectedServer : Option Nat := Option.none
  wireframe : Nat → Bool := fun _ => false
  opacity : Nat → ℚ := fun _ => 1
  lightColor : Nat → Nat := fun _ => 0x00ff00
  uniformTemp : Nat → ℚ := fun _ => 0
  panel : Option PanelView := Option.none

/-- The interaction state right after construction. -/
def initState : DCState := {}

/-- A state with the server mesh of `rack0-server0` selected, for witnesses. -/
def demoSelState : DCState := { initState with selectedServer := some 103 }

/-- `this.hoveredRack.children.find(child => child.userData.isRackCase)`:
children appear in index order in the embedded scene. -/
def rackCaseOf (nodes : List SceneNode) (g : Nat) : Option Nat :=
  (List.range nodes.length).find? fun i =>
    match nodes.get? i with
    | some n => n.parent == some g && n.isRackCase
    | Option.none => false

/-- `serverMesh.children[0]` (the indicator light: the first node whose
parent is the given mesh). -/
def firstChild (nodes : List SceneNode) (m : Nat) : Option Nat :=
  (List.range nodes.length).find? fun i =>
    match nodes.get? i with
    | some n => n.parent == some m
    | Option.none => false

/-- The reset pass at the top of `handleMouseMove` (lines 331-341): restore
the previously hovered rack case's opacity to 1, and clear the previously
hovered server's wireframe unless it is the selected server. -/
def hoverResets (nodes : List SceneNode) (st : DCState) : DCState × List Effect :=
  let a :=
    match st.hoveredRack with
    | some g =>
      match rackCaseOf nodes g with
      | some c =>
          ({ st with opacity := fun i => if i = c then 1 else st.opacity i },
           [Effect.rackOpacityReset c])
      | Option.none => (st, [])
    | Option.none => (st, [])
  match st.hoveredServer with
  | some m =>
    if st.selectedServer ≠ some m then
      ({ a.1 with wireframe := fun i => if i = m then false else a.1.wireframe i },
       a.2 ++ [Effect.serverWireframeOff m])
    else a
  | Option.none => a

/-- The hit branch of `handleMouseMove` (lines 354-389): walk to the
resolution target, then either hover a rack (set `hoveredRack`, dim its case
to opacity 0.7, show the rack roster) or hover a server (set
`hoveredServer`, wireframe on unless it is the selected server, show its
details when its record exists); an unresolved untagged target changes
nothing. -/
def hoverApply (nodes : List SceneNode) (store : List ServerData) (hit : Nat)
    (st : DCState) : DCState × List Effect :=
  let t := walkTarget nodes hit
  match nodes.get? t with
  | Option.none => (st, [])
  | some tn =>
    if tn.isRackCase then
      let st2 := { st with hoveredRack := tn.parent,
                           opacity := fun i => if i = t then 7/10 else st.opacity i }
      match tn.parent.bind (fun rp => (nodes.get? rp).bind SceneNode.rackIndex) with
      | some ri =>
          ({ st2 with panel := some (PanelView.rackView ri) },
           [Effect.rackEnter t, Effect.panelRack ri])
      | Option.none => (st2, [Effect.rackEnter t])
    else
      match tn.dataId with
      | some id =>
        let st2 := { st with hoveredServer := some t }
        let b :=
          if st2.selectedServer ≠ some t then
            ({ st2 with wireframe := fun i => if i = t then true else st2.wireframe i },
             [Effect.serverEnter t])
          else (st2, [])
        match getServerData id store with
        | some _ => ({ b.1 with panel := some (PanelView.serverView id) },
                     b.2 ++ [Effect.panelServer id])
        | Option.none => b
      | Option.none => (st, [])

/-- The no-intersection branch of `handleMouseMove` (lines 390-394). -/
def hoverNone (st : DCState) : DCState × List Effect :=
  ({ st with hoveredRack := Option.none, hoveredServer := Option.none,
             panel := some PanelView.defaultView },
   [Effect.panelDefault])

/-- `handleMouseMove`: reset pass, then the branch picked by the nearest
move-pickable intersection along the ray. -/
def handleMouseMove (nodes : List SceneNode) (store : List ServerData)
    (ray : List Nat) (st : DCState) : DCState × List Effect :=
  let a := hoverResets nodes st
  let b :=
    match (ray.filter fun i => pickableMove nodes i).head? with
    | some h => hoverApply nodes store h a.1
    | Option.none => hoverNone a.1
  (b.1, a.2 ++ b.2)

/-- `handleClick` (lines 397-427): intersect the ray with the server meshes
(and, recursively, their children); if the nearest hit carries a server id
whose record exists, clear the previous selection's wireframe, select the
hit mesh, set its wireframe, and show its details; otherwise change
nothing. -/
def handleClick (nodes : List SceneNode) (store : List ServerData)
    (ray : List Nat) (st : DCState) : DCState × List Effect :=
  match (ray.filter fun i => pickableClick nodes i).head? with
  | Option.none => (st, [])
  | some h =>
    match (nodes.get? h).bind SceneNode.dataId with
    | Option.none => (st, [])
    | some id =>
      match getServerData id store with
      | Option.none => (st, [])
      | some _ =>
        let a :=
          match st.selectedServer with
          | some prev =>
              ({ st with wireframe := fun i => if i = prev then false else st.wireframe i },
               [Effect.selectOff prev])
          | Option.none => (st, [])
        ({ a.1 with selectedServer := some h,
                    wireframe := fun i => if i = h then true else a.1.wireframe i,
                    panel := some (PanelView.serverView id) },
         a.2 ++ [Effect.selectOn h, Effect.panelServer id])

/-- The status → indicator-light color switch in `update` (lines 314-324). -/
def statusLightColor : Status → Nat
  | Status.normal => 0x00ff00
  | Status.warning => 0xffff00
  | Status.error => 0xff0000

/-- The `this.servers.forEach` body of `update` (lines 302-328): for each
server mesh whose record exists, set its heatmap uniform to
`(temperature-20)/30` and its first child's (the indicator light's) color
from the record status. -/
def applyTelemetry (nodes : List SceneNode) (store : List ServerData) :
    List (String × Nat) → DCState → DCState
  | [], st => st
  | (id, m) :: rest, st =>
    let st1 :=
      match getServerData id store with
      | some d =>
        { st with
          uniformTemp := fun i => if i = m then (d.temperature - 20) / 30 else st.uniformTemp i,
          lightColor := fun i => if firstChild nodes m = some i then statusLightColor d.status
                                 else st.lightColor i }
      | Option.none => st
    applyTelemetry nodes store rest st1

/-- `update()` (lines 299-329): advance the telemetry one tick, then push
temperature uniforms and status light colors into the scene. -/
def updateDC (nodes : List SceneNode) (rnd : Nat → ℚ) (store : List ServerData)
    (st : DCState) : List ServerData × DCState :=
  let store2 := updateServerStatus rnd store
  (store2, applyTelemetry nodes store2 (serversMapOf nodes) st)

/-- Boolean form of the nested-pick property, for finite checking over the
scene: a pickable untagged node nested in a tagged assembly resolves to that
assembly's server. -/
def nestedPickCheck (nodes : List SceneNode) (h : Nat) : Bool :=
  !(pickableMove nodes h) || !(untaggedNode nodes h) ||
  (match nestedServerId nodes h with
   | some id => resolveMove nodes h == InteractionTarget.server id
   | Option.none => true)

/-- Boolean form of the rack-walk property, for finite checking over the
scene: when a pickable hit resolves to a rack case, that case is exactly the
`isRackCase` child its parent rack reports. -/
def rackWalkCheck (nodes : List SceneNode) (h : Nat) : Bool :=
  !(pickableMove nodes h) ||
  (match nodes.get? (walkTarget nodes h) with
   | some tn =>
     !tn.isRackCase ||
     (match tn.parent with
      | some rp => rackCaseOf nodes rp == some (walkTarget nodes h)
      | Option.none => false)
   | Option.none => true)

/-! ## Theorems -/

theorem demoRnd_valid : ValidRnd demoRnd := fun _ => ⟨le_refl 0, zero_lt_one⟩

theorem clamp_bounds (lo hi x : ℚ) (h : lo ≤ hi) :
    lo ≤ clamp lo hi x ∧ clamp lo hi x ≤ hi :=
  ⟨le_max_left lo _, max_le h (min_le_left hi x)⟩

theorem tickServer_bounds (s : ServerData) (r1 r2 r3 : ℚ) :
    25 ≤ (tickServer s r1 r2 r3).temperature ∧ (tickServer s r1 r2 r3).temperature ≤ 45 ∧
    20 ≤ (tickServer s r1 r2 r3).cpuUsage ∧ (tickServer s r1 r2 r3).cpuUsage ≤ 95 ∧
    30 ≤ (tickServer s r1 r2 r3).memoryUsage ∧ (tickServer s r1 r2 r3).memoryUsage ≤ 95 := by
  have h1 := clamp_bounds 25 45 (s.temperature + (r1 - 1/2) * 2) (by norm_num)
  have h2 := clamp_bounds 20 95 (s.cpuUsage + (r2 - 1/2) * 10) (by norm_num)
  have h3 := clamp_bounds 30 95 (s.memoryUsage + (r3 - 1/2) * 5) (by norm_num)
  exact ⟨h1.1, h1.2, h2.1, h2.2, h3.1, h3.2⟩

theorem tickServer_status (s : ServerData) (r1 r2 r3 : ℚ) :
    (tickServer s r1 r2 r3).status =
      computeStatus (tickServer s r1 r2 r3).temperature (tickServer s r1 r2 r3).cpuUsage
        (tickServer s r1 r2 r3).memoryUsage := rfl

theorem mem_updateFrom (rnd : Nat → ℚ) :
    ∀ (l : List ServerData) (k : Nat) (s : ServerData), s ∈ updateFrom rnd k l →
      ∃ t r1 r2 r3, s = tickServer t r1 r2 r3
  | [], _, s, h => absurd h (List.not_mem_nil s)
  | t :: rest, k, s, h => by
    rcases List.mem_cons.mp h with h1 | h2
    · exact ⟨t, _, _, _, h1⟩
    · exact mem_updateFrom rnd rest (k + 1) s h2

theorem updateFrom_get? (rnd : Nat → ℚ) :
    ∀ (l : List ServerData) (k i : Nat),
      (updateFrom rnd k l).get? i
        = (l.get? i).map fun s =>
            tickServer s (rnd (3 * (k + i))) (rnd (3 * (k + i) + 1)) (rnd (3 * (k + i) + 2))
  | [], _, i => by simp [updateFrom]
  | s :: rest, k, 0 => by simp [updateFrom]
  | s :: rest, k, i + 1 => by
    have ih := updateFrom_get? rnd rest (k + 1) i
    rw [show (k + 1) + i = k + (i + 1) from by omega] at ih
    simpa [updateFrom] using ih

theorem update_status_inv (rnd : Nat → ℚ) (l : List ServerData) :
    ∀ s ∈ updateServerStatus rnd l,
      s.status = computeStatus s.temperature s.cpuUsage s.memoryUsage := by
  intro s hs
  obtain ⟨u, r1, r2, r3, rfl⟩ := mem_updateFrom rnd l 0 s hs
  exact tickServer_status u r1 r2 r3

theorem ticks_invariant (P : ServerData → Prop)
    (hP : ∀ (l : List ServerData) (rnd : Nat → ℚ), ∀ s ∈ updateServerStatus rnd l, P s) :
    ∀ (rs : List (Nat → ℚ)) (l : List ServerData), (∀ s ∈ l, P s) → ∀ s ∈ ticks rs l, P s
  | [], _, h0, s, hs => h0 s hs
  | r :: rest, l, _, s, hs =>
      ticks_invariant P hP rest (updateServerStatus r l) (fun t ht => hP l r t ht) s hs

theorem ticks_status_inv :
    ∀ (rs : List (Nat → ℚ)) (r : Nat → ℚ) (l : List ServerData),
      ∀ s ∈ ticks rs (updateServerStatus r l),
        s.status = computeStatus s.temperature s.cpuUsage s.memoryUsage
  | [], r, l, s, hs => update_status_inv r l s hs
  | r' :: rest, r, l, s, hs => ticks_status_inv rest r' (updateServerStatus r l) s hs

theorem init_bounds (rnd : Nat → ℚ) (h : ValidRnd rnd) :
    ∀ sv ∈ initializeServers rnd,
      25 ≤ sv.temperature ∧ sv.temperature < 45 ∧
      20 ≤ sv.cpuUsage ∧ sv.cpuUsage < 80 ∧
      30 ≤ sv.memoryUsage ∧ sv.memoryUsage < 80 ∧ sv.status = Status.normal := by
  intro sv hsv
  simp only [initializeServers, List.mem_flatMap, List.mem_map, List.mem_range] at hsv
  obtain ⟨rack, hrack, srv, hsrv, rfl⟩ := hsv
  obtain ⟨h1a, h1b⟩ := h ((rack * 5 + srv) * 3)
  obtain ⟨h2a, h2b⟩ := h ((rack * 5 + srv) * 3 + 1)
  obtain ⟨h3a, h3b⟩ := h ((rack * 5 + srv) * 3 + 2)
  refine ⟨?_, ?_, ?_, ?_, ?_, ?_, rfl⟩ <;> simp only [initialServer] <;> nlinarith

/-- C1 (amended): at every state reached after at least one `tick()`, every
record's status equals the threshold function of its three (post-clamp)
metrics: error if temperature>42 or cpu>90 or memory>90, else warning if
temperature>38 or cpu>75 or memory>75, else normal.  (Immediately after
`initialize()` the invariant can fail, see the counterexample: status is
hard-coded `'normal'` there regardless of the randomized metrics.) -/
theorem C1_status_threshold (initRnd : Nat → ℚ) (tickRnds : List (Nat → ℚ))
    (hne : tickRnds ≠ []) (s : ServerData)
    (hs : s ∈ ticks tickRnds (initializeServers initRnd)) :
    s.status = computeStatus s.temperature s.cpuUsage s.memoryUsage := by
  cases tickRnds with
  | nil => exact absurd rfl hne
  | cons r rest => exact ticks_status_inv rest r (initializeServers initRnd) s hs

/-- C1 counterexample: with every `Math.random()` draw equal to 9/10 (a legal
draw in `[0,1)`), the very first record created by `initialize()` has
temperature 43 (> 42, so the threshold table says error) but status `normal`:
the claimed invariant is false immediately after `initialize()`. -/
theorem C1_status_threshold_counterexample :
    (0:ℚ) ≤ 9/10 ∧ (9:ℚ)/10 < 1 ∧
    ((initializeServers (fun _ => 9/10)).head?.map
      (fun s => (s.status, computeStatus s.temperature s.cpuUsage s.memoryUsage)))
      = some (Status.normal, Status.error) := by
  refine ⟨by norm_num, by norm_num, ?_⟩
  have h1 : (initializeServers (fun _ => 9/10)).head?
      = some (initialServer 0 0 (9/10) (9/10) (9/10)) := rfl
  rw [h1, Option.map_some']
  refine congrArg some (Prod.ext ?_ ?_)
  · rfl
  · show computeStatus _ _ _ = Status.error
    norm_num [initialServer, computeStatus]

theorem C1_status_threshold_witness :
    ∃ s, s ∈ ticks [demoRnd] (initializeServers demoRnd) ∧
      s.status = computeStatus s.temperature s.cpuUsage s.memoryUsage := by
  have h45 : (ticks [demoRnd] (initializeServers demoRnd)).length = 45 := rfl
  obtain ⟨s, hs⟩ := List.exists_mem_of_ne_nil (ticks [demoRnd] (initializeServers demoRnd))
    (by intro hnil; rw [hnil] at h45; simp at h45)
  exact ⟨s, hs, C1_status_threshold demoRnd [demoRnd] (by simp) s hs⟩

/-- C2: for every record reachable by `initialize()` followed by any number of
`tick()` calls (including zero), the metrics satisfy 25 ≤ temperature ≤ 45,
20 ≤ cpuUsage ≤ 95, 30 ≤ memoryUsage ≤ 95: each metric is clamped to its
bounds after every update, and the initial ranges lie inside the bounds. -/
theorem C2_metric_bounds (initRnd : Nat → ℚ) (hinit : ValidRnd initRnd)
    (tickRnds : List (Nat → ℚ)) (s : ServerData)
    (hs : s ∈ ticks tickRnds (initializeServers initRnd)) :
    25 ≤ s.temperature ∧ s.temperature ≤ 45 ∧
    20 ≤ s.cpuUsage ∧ s.cpuUsage ≤ 95 ∧
    30 ≤ s.memoryUsage ∧ s.memoryUsage ≤ 95 := by
  refine ticks_invariant
    (fun t => 25 ≤ t.temperature ∧ t.temperature ≤ 45 ∧
      20 ≤ t.cpuUsage ∧ t.cpuUsage ≤ 95 ∧ 30 ≤ t.memoryUsage ∧ t.memoryUsage ≤ 95)
    ?_ tickRnds _ ?_ s hs
  · intro l rnd t ht
    obtain ⟨u, r1, r2, r3, rfl⟩ := mem_updateFrom rnd l 0 t ht
    exact tickServer_bounds u r1 r2 r3
  · intro t ht
    obtain ⟨ha, hb, hc, hd, he, hf, _⟩ := init_bounds initRnd hinit t ht
    exact ⟨ha, le_of_lt hb, hc, le_trans (le_of_lt hd) (by norm_num),
           he, le_trans (le_of_lt hf) (by norm_num)⟩

theorem C2_metric_bounds_witness :
    ∃ s, s ∈ ticks [demoRnd] (initializeServers demoRnd) ∧
      (25 ≤ s.temperature ∧ s.temperature ≤ 45 ∧
       20 ≤ s.cpuUsage ∧ s.cpuUsage ≤ 95 ∧
       30 ≤ s.memoryUsage ∧ s.memoryUsage ≤ 95) := by
  have h45 : (ticks [demoRnd] (initializeServers demoRnd)).length = 45 := rfl
  obtain ⟨s, hs⟩ := List.exists_mem_of_ne_nil (ticks [demoRnd] (initializeServers demoRnd))
    (by intro hnil; rw [hnil] at h45; simp at h45)
  exact ⟨s, hs, C2_metric_bounds demoRnd demoRnd_valid [demoRnd] s hs⟩

/-- C3: one `tick()` acts on every record independently of all other records:
the output at position i is exactly `tickServer` (random delta, then clamp,
in the source's order: temperature to [25,45], cpu to [20,95], memory to
[30,95], then the most-severe-first status recomputation) applied to the
input at position i and that record's own three draws — so the result at a
position depends only on the input at that position, never on other records,
making the update order-insensitive. -/
theorem C3_tick_pointwise (rnd : Nat → ℚ) (l : List ServerData) (i : Nat) :
    ((updateServerStatus rnd l).get? i
      = (l.get? i).map fun s =>
          tickServer s (rnd (3 * i)) (rnd (3 * i + 1)) (rnd (3 * i + 2))) ∧
    (∀ l2 : List ServerData, l.get? i = l2.get? i →
      (updateServerStatus rnd l).get? i = (updateServerStatus rnd l2).get? i) := by
  have key : ∀ m : List ServerData, (updateServerStatus rnd m).get? i
      = (m.get? i).map fun s =>
          tickServer s (rnd (3 * i)) (rnd (3 * i + 1)) (rnd (3 * i + 2)) := by
    intro m
    have h := updateFrom_get? rnd m 0 i
    simpa [updateServerStatus] using h
  exact ⟨key l, fun l2 hl2 => by rw [key l, key l2, hl2]⟩

theorem C3_tick_pointwise_witness :
    ((updateServerStatus demoRnd demoStore).get? 0
      = (demoStore.get? 0).map fun s =>
          tickServer s (demoRnd (3 * 0)) (demoRnd (3 * 0 + 1)) (demoRnd (3 * 0 + 2))) ∧
    (∀ l2 : List ServerData, demoStore.get? 0 = l2.get? 0 →
      (updateServerStatus demoRnd demoStore).get? 0 = (updateServerStatus demoRnd l2).get? 0) :=
  C3_tick_pointwise demoRnd demoStore 0

/-- C4: `initialize()` creates exactly 45 records; their ids are exactly the
list `rack<R>-server<S>` for R ∈ [0,8], S ∈ [0,4] in rack-major order, with
no duplicates and every pair covered; each record has temperature ∈ [25,45),
cpuUsage ∈ [20,80), memoryUsage ∈ [30,80) (given draws in [0,1)) and
status normal. -/
theorem C4_initialize (rnd : Nat → ℚ) (h : ValidRnd rnd) :
    (initializeServers rnd).length = 45 ∧
    (initializeServers rnd).map ServerData.id = serverIds ∧
    serverIds.Nodup ∧
    (∀ r, r < 9 → ∀ s, s < 5 → mkId r s ∈ serverIds) ∧
    (∀ sv ∈ initializeServers rnd,
      25 ≤ sv.temperature ∧ sv.temperature < 45 ∧
      20 ≤ sv.cpuUsage ∧ sv.cpuUsage < 80 ∧
      30 ≤ sv.memoryUsage ∧ sv.memoryUsage < 80 ∧ sv.status = Status.normal) :=
  ⟨rfl, rfl, by decide, by decide, init_bounds rnd h⟩

theorem C4_initialize_witness :
    (initializeServers demoRnd).length = 45 ∧
    (initializeServers demoRnd).map ServerData.id = serverIds ∧
    serverIds.Nodup ∧
    (∀ r, r < 9 → ∀ s, s < 5 → mkId r s ∈ serverIds) ∧
    (∀ sv ∈ initializeServers demoRnd,
      25 ≤ sv.temperature ∧ sv.temperature < 45 ∧
      20 ≤ sv.cpuUsage ∧ sv.cpuUsage < 80 ∧
      30 ≤ sv.memoryUsage ∧ sv.memoryUsage < 80 ∧ sv.status = Status.normal) :=
  C4_initialize demoRnd demoRnd_valid

/-- C9: `get(id)` is total — it returns the matching record or nothing, and
never fails, for every id string including ids with no backing record; and
the call leaves the store unchanged.  When it returns a record, the record is
in the store and has the requested id; when it returns nothing, no record in
the store has that id. -/
theorem C9_get_total (servers : List ServerData) (id : String) :
    ((getServerDataCall servers id).2 = servers) ∧
    (∀ r, getServerData id servers = some r → r ∈ servers ∧ r.id = id) ∧
    (getServerData id servers = Option.none → ∀ r ∈ servers, r.id ≠ id) := by
  refine ⟨rfl, ?_, ?_⟩
  · intro r hr
    refine ⟨List.mem_of_find?_eq_some hr, ?_⟩
    have h := List.find?_some hr
    simpa using h
  · intro hnone r hr
    have h := List.find?_eq_none.mp hnone r hr
    simpa using h

theorem C9_get_total_witness :
    ((getServerDataCall demoStore "no-such-id").2 = demoStore) ∧
    (∀ r, getServerData "no-such-id" demoStore = some r → r ∈ demoStore ∧ r.id = "no-such-id") ∧
    (getServerData "no-such-id" demoStore = Option.none →
      ∀ r ∈ demoStore, r.id ≠ "no-such-id") :=
  C9_get_total demoStore "no-such-id"

theorem sceneNodes_length : sceneNodes.length = 388 := rfl

theorem pickableMove_lt (nodes : List SceneNode) (h : Nat)
    (hp : pickableMove nodes h = true) : h < nodes.length := by
  by_contra hge
  push_neg at hge
  have hnone : nodes.get? h = Option.none := List.get?_eq_none.mpr hge
  simp only [pickableMove, hnone] at hp
  exact Bool.false_ne_true hp

set_option maxHeartbeats 2000000 in
theorem scene_nested_pick_check : ∀ h, h < 388 → nestedPickCheck sceneNodes h = true := by
  decide

set_option maxHeartbeats 2000000 in
theorem scene_rack_walk_check : ∀ h, h < 388 → rackWalkCheck sceneNodes h = true := by
  decide

/-- C5: whenever the nearest pickable intersection of a ray is an untagged
sub-part nested inside a tagged server assembly (in this scene: an indicator
light), the parent-chain walk stops at the first tagged ancestor and the pick
resolves to that server's logical `Server` target — never to no target and
never to the enclosing rack. -/
theorem C5_nested_pick (h : Nat) (id : String)
    (hp : pickableMove sceneNodes h = true)
    (hu : untaggedNode sceneNodes h = true)
    (hn : nestedServerId sceneNodes h = some id) :
    resolveMove sceneNodes h = InteractionTarget.server id := by
  have hlt : h < 388 := sceneNodes_length ▸ pickableMove_lt sceneNodes h hp
  have hc := scene_nested_pick_check h hlt
  simp only [nestedPickCheck, hp, hu, hn, Bool.not_true, Bool.false_or, beq_iff_eq] at hc
  exact hc

theorem C5_nested_pick_witness :
    pickableMove sceneNodes 104 = true ∧ untaggedNode sceneNodes 104 = true ∧
    nestedServerId sceneNodes 104 = some "rack0-server0" ∧
    resolveMove sceneNodes 104 = InteractionTarget.server "rack0-server0" :=
  ⟨by decide, by decide, by decide,
   C5_nested_pick 104 "rack0-server0" (by decide) (by decide) (by decide)⟩

set_option maxHeartbeats 2000000 in
theorem serversMap_firstChild :
    ∀ p ∈ serversMapOf sceneNodes, firstChild sceneNodes p.2 = some (p.2 + 1) := by
  decide

set_option maxHeartbeats 2000000 in
theorem serversMap_snd_inj :
    ∀ p ∈ serversMapOf sceneNodes, ∀ q ∈ serversMapOf sceneNodes, p.2 = q.2 → p = q := by
  decide

theorem applyTelemetry_light_preserved (nodes : List SceneNode) (store : List ServerData)
    (li : Nat) :
    ∀ (entries : List (String × Nat)) (st : DCState),
      (∀ p ∈ entries, firstChild nodes p.2 ≠ some li) →
      (applyTelemetry nodes store entries st).lightColor li = st.lightColor li
  | [], _, _ => rfl
  | (id, m) :: rest, st, hall => by
    have hm : firstChild nodes m ≠ some li := hall (id, m) (List.mem_cons_self _ _)
    have hrest : ∀ p ∈ rest, firstChild nodes p.2 ≠ some li :=
      fun p hp => hall p (List.mem_cons_of_mem _ hp)
    cases hd : getServerData id store with
    | none =>
        simp only [applyTelemetry, hd]
        exact applyTelemetry_light_preserved nodes store li rest st hrest
    | some d =>
        simp only [applyTelemetry, hd]
        rw [applyTelemetry_light_preserved nodes store li rest _ hrest]
        simp [hm]

theorem applyTelemetry_light_set (nodes : List SceneNode) (store : List ServerData)
    (id : String) (m : Nat) (d : ServerData) (li : Nat) :
    ∀ (entries : List (String × Nat)) (st : DCState),
      (id, m) ∈ entries →
      (∀ q ∈ entries, firstChild nodes q.2 = some li → q = (id, m)) →
      firstChild nodes m = some li →
      getServerData id store = some d →
      (applyTelemetry nodes store entries st).lightColor li = statusLightColor d.status
  | [], _, hmem, _, _, _ => absurd hmem (List.not_mem_nil _)
  | (eid, em) :: rest, st, hmem, huniq, hli, hd => by
    by_cases he : (eid, em) = (id, m)
    · have heid : eid = id := congrArg Prod.fst he
      have hem : em = m := congrArg Prod.snd he
      subst heid
      subst hem
      simp only [applyTelemetry, hd]
      by_cases hrm : (eid, em) ∈ rest
      · exact applyTelemetry_light_set nodes store eid em d li rest _ hrm
          (fun q hq hql => huniq q (List.mem_cons_of_mem _ hq) hql) hli hd
      · have hnone : ∀ p ∈ rest, firstChild nodes p.2 ≠ some li := by
          intro p hp hcon
          have hpe := huniq p (List.mem_cons_of_mem _ hp) hcon
          exact hrm (hpe ▸ hp)
        rw [applyTelemetry_light_preserved nodes store li rest _ hnone]
        simp [hli]
    · have hmem2 : (id, m) ∈ rest := by
        rcases List.mem_cons.mp hmem with hcon | hh
        · exact absurd hcon.symm he
        · exact hh
      cases hd2 : getServerData eid store with
      | none =>
          simp only [applyTelemetry, hd2]
          exact applyTelemetry_light_set nodes store id m d li rest _ hmem2
            (fun q hq hql => huniq q (List.mem_cons_of_mem _ hq) hql) hli hd
      | some d2 =>
          simp only [applyTelemetry, hd2]
          exact applyTelemetry_light_set nodes store id m d li rest _ hmem2
            (fun q hq hql => huniq q (List.mem_cons_of_mem _ hq) hql) hli hd

/-- C10: after `update()`, for every id → server mesh entry of the scene whose
record exists in the (already ticked) store, the indicator light (the mesh's
first child) has the color determined purely by that record's status:
0x00ff00 for normal, 0xffff00 for warning, 0xff0000 for error; the color
function has no other cases. -/
theorem C10_light_colors (rnd : Nat → ℚ) (store : List ServerData) (st : DCState)
    (id : String) (m : Nat) (d : ServerData) (li : Nat)
    (hmem : (id, m) ∈ serversMapOf sceneNodes)
    (hli : firstChild sceneNodes m = some li)
    (hd : getServerData id (updateServerStatus rnd store) = some d) :
    ((updateDC sceneNodes rnd store st).2).lightColor li = statusLightColor d.status ∧
    statusLightColor Status.normal = 0x00ff00 ∧
    statusLightColor Status.warning = 0xffff00 ∧
    statusLightColor Status.error = 0xff0000 := by
  refine ⟨?_, rfl, rfl, rfl⟩
  have huniq : ∀ q ∈ serversMapOf sceneNodes,
      firstChild sceneNodes q.2 = some li → q = (id, m) := by
    intro q hq hql
    have h1 : firstChild sceneNodes q.2 = some (q.2 + 1) := serversMap_firstChild q hq
    have h2 : firstChild sceneNodes m = some (m + 1) := serversMap_firstChild (id, m) hmem
    have e1 : q.2 + 1 = li := Option.some.inj (h1.symm.trans hql)
    have e2 : m + 1 = li := Option.some.inj (h2.symm.trans hli)
    exact serversMap_snd_inj q hq (id, m) hmem (by omega)
  have key := applyTelemetry_light_set sceneNodes (updateServerStatus rnd store) id m d li
    (serversMapOf sceneNodes) st hmem huniq hli hd
  simpa [updateDC] using key

theorem C10_light_colors_witness :
    ∃ d, getServerData "rack0-server0" (updateServerStatus demoRnd demoStore) = some d ∧
      (((updateDC sceneNodes demoRnd demoStore initState).2).lightColor 104
          = statusLightColor d.status ∧
       statusLightColor Status.normal = 0x00ff00 ∧
       statusLightColor Status.warning = 0xffff00 ∧
       statusLightColor Status.error = 0xff0000) := by
  obtain ⟨d, hd⟩ :
      ∃ d, getServerData "rack0-server0" (updateServerStatus demoRnd demoStore) = some d :=
    ⟨_, rfl⟩
  exact ⟨d, hd,
    C10_light_colors demoRnd demoStore initState "rack0-server0" 103 d 104
      (by decide) (by decide) hd⟩

/-- C8: on click, if the nearest candidate hit carries a server id whose
record exists, the previous selection (if any) gets its deselect effect and
loses its wireframe, the clicked mesh becomes `selectedServer` with its
select effect and wireframe on, and a single-server detail view is rendered;
if the ray hits no candidate, or the hit carries no server id (rack cases
and decorative geometry are never candidates with ids; empty space gives no
hit), the state and effect trace are completely unchanged. -/
theorem C8_click_transitions (nodes : List SceneNode) (store : List ServerData)
    (ray : List Nat) (st : DCState) :
    ((ray.filter fun i => pickableClick nodes i).head? = Option.none →
      handleClick nodes store ray st = (st, [])) ∧
    (∀ h, (ray.filter fun i => pickableClick nodes i).head? = some h →
      ((nodes.get? h).bind SceneNode.dataId = Option.none →
        handleClick nodes store ray st = (st, [])) ∧
      (∀ id, (nodes.get? h).bind SceneNode.dataId = some id →
        ∀ d, getServerData id store = some d →
          (handleClick nodes store ray st).1.selectedServer = some h ∧
          (handleClick nodes store ray st).1.wireframe h = true ∧
          (handleClick nodes store ray st).1.panel = some (PanelView.serverView id) ∧
          Effect.selectOn h ∈ (handleClick nodes store ray st).2 ∧
          Effect.panelServer id ∈ (handleClick nodes store ray st).2 ∧
          (∀ prev, st.selectedServer = some prev →
            Effect.selectOff prev ∈ (handleClick nodes store ray st).2 ∧
            (prev ≠ h → (handleClick nodes store ray st).1.wireframe prev = false)))) := by
  refine ⟨?_, ?_⟩
  · intro hh
    simp only [handleClick, hh]
  · intro h hh
    refine ⟨?_, ?_⟩
    · intro hid
      simp only [handleClick, hh, hid]
    · intro id hid d hd
      refine ⟨?_, ?_, ?_, ?_, ?_, ?_⟩
      · cases hsel : st.selectedServer <;> simp only [handleClick, hh, hid, hd, hsel]
      · cases hsel : st.selectedServer <;> simp only [handleClick, hh, hid, hd, hsel] <;> simp
      · cases hsel : st.selectedServer <;> simp only [handleClick, hh, hid, hd, hsel]
      · cases hsel : st.selectedServer <;> simp only [handleClick, hh, hid, hd, hsel] <;> simp
      · cases hsel : st.selectedServer <;> simp only [handleClick, hh, hid, hd, hsel] <;> simp
      · intro prev hprev
        refine ⟨?_, ?_⟩
        · simp only [handleClick, hh, hid, hd, hprev]
          simp
        · intro hne
          simp only [handleClick, hh, hid, hd, hprev]
          simp [hne]

theorem hoverResets_selected (nodes : List SceneNode) (s : DCState) (m : Nat)
    (hsel : s.selectedServer = some m) :
    (hoverResets nodes s).1.selectedServer = some m ∧
    (hoverResets nodes s).1.wireframe m = s.wireframe m ∧
    Effect.serverEnter m ∉ (hoverResets nodes s).2 ∧
    Effect.serverWireframeOff m ∉ (hoverResets nodes s).2 := by
  cases hs2 : s.hoveredServer with
  | none =>
    cases hr : s.hoveredRack with
    | none => simp only [hoverResets, hr, hs2]; simp [hsel]
    | some g =>
      cases hrc : rackCaseOf nodes g with
      | none => simp only [hoverResets, hr, hrc, hs2]; simp [hsel]
      | some c => simp only [hoverResets, hr, hrc, hs2]; simp [hsel]
  | some m2 =>
    by_cases hm2 : m2 = m
    · subst hm2
      cases hr : s.hoveredRack with
      | none => simp only [hoverResets, hr, hs2, hsel]; simp [hsel]
      | some g =>
        cases hrc : rackCaseOf nodes g with
        | none => simp only [hoverResets, hr, hrc, hs2, hsel]; simp [hsel]
        | some c => simp only [hoverResets, hr, hrc, hs2, hsel]; simp [hsel]
    · have hm2s : m ≠ m2 := fun hcon => hm2 hcon.symm
      cases hr : s.hoveredRack with
      | none => simp only [hoverResets, hr, hs2, hsel]; simp [hsel, hm2, hm2s]
      | some g =>
        cases hrc : rackCaseOf nodes g with
        | none => simp only [hoverResets, hr, hrc, hs2, hsel]; simp [hsel, hm2, hm2s]
        | some c => simp only [hoverResets, hr, hrc, hs2, hsel]; simp [hsel, hm2, hm2s]

theorem hoverApply_selected (nodes : List SceneNode) (store : List ServerData)
    (hit : Nat) (s : DCState) (m : Nat) (hsel : s.selectedServer = some m) :
    (hoverApply nodes store hit s).1.selectedServer = some m ∧
    (hoverApply nodes store hit s).1.wireframe m = s.wireframe m ∧
    Effect.serverEnter m ∉ (hoverApply nodes store hit s).2 ∧
    Effect.serverWireframeOff m ∉ (hoverApply nodes store hit s).2 := by
  cases hg : nodes.get? (walkTarget nodes hit) with
  | none => simp only [hoverApply, hg]; simp [hsel]
  | some tn =>
    by_cases hrc : tn.isRackCase = true
    · cases hri : tn.parent.bind (fun rp => (nodes.get? rp).bind SceneNode.rackIndex) with
      | none => simp only [hoverApply, hg, hrc, hri]; simp [hsel]
      | some ri => simp only [hoverApply, hg, hrc, hri]; simp [hsel]
    · cases hdi : tn.dataId with
      | none => simp only [hoverApply, hg, hrc, hdi]; simp [hsel]
      | some id =>
        by_cases htm : walkTarget nodes hit = m
        · cases hsd : getServerData id store with
          | none =>
            simp only [hoverApply, hg, hrc, hdi, hsd]
            simp [hsel, htm]
          | some d =>
            simp only [hoverApply, hg, hrc, hdi, hsd]
            simp [hsel, htm]
        · have htm2 : m ≠ walkTarget nodes hit := fun hcon => htm hcon.symm
          cases hsd : getServerData id store with
          | none =>
            simp only [hoverApply, hg, hrc, hdi, hsd]
            simp [hsel, htm, htm2]
          | some d =>
            simp only [hoverApply, hg, hrc, hdi, hsd]
            simp [hsel, htm, htm2]

/-- C7: while a server is selected, no pointer-move disturbs its selection
emphasis: its wireframe flag is untouched (the leave pass skips the selected
server, and the enter effect for it is suppressed), no enter or leave visual
effect ever targets it, and the selection itself is unchanged — whether the
move hovers the selected server itself, another target, or nothing. -/
theorem C7_selection_precedence (nodes : List SceneNode) (store : List ServerData)
    (ray : List Nat) (s : DCState) (m : Nat) (hsel : s.selectedServer = some m) :
    (handleMouseMove nodes store ray s).1.selectedServer = some m ∧
    (handleMouseMove nodes store ray s).1.wireframe m = s.wireframe m ∧
    Effect.serverEnter m ∉ (handleMouseMove nodes store ray s).2 ∧
    Effect.serverWireframeOff m ∉ (handleMouseMove nodes store ray s).2 := by
  have ha := hoverResets_selected nodes s m hsel
  cases hh : (ray.filter fun i => pickableMove nodes i).head? with
  | some h =>
    have hb := hoverApply_selected nodes store h (hoverResets nodes s).1 m ha.1
    simp only [handleMouseMove, hh]
    refine ⟨hb.1, by rw [hb.2.1]; exact ha.2.1, ?_, ?_⟩
    · simp only [List.mem_append, not_or]
      exact ⟨ha.2.2.1, hb.2.2.1⟩
    · simp only [List.mem_append, not_or]
      exact ⟨ha.2.2.2, hb.2.2.2⟩
  | none =>
    simp only [handleMouseMove, hh, hoverNone]
    refine ⟨ha.1, ha.2.1, ?_, ?_⟩
    · simp only [List.mem_append, not_or]
      exact ⟨ha.2.2.1, by simp⟩
    · simp only [List.mem_append, not_or]
      exact ⟨ha.2.2.2, by simp⟩

theorem C7_selection_precedence_witness :
    (handleMouseMove sceneNodes demoStore [101] demoSelState).1.selectedServer = some 103 ∧
    (handleMouseMove sceneNodes demoStore [101] demoSelState).1.wireframe 103
      = demoSelState.wireframe 103 ∧
    Effect.serverEnter 103 ∉ (handleMouseMove sceneNodes demoStore [101] demoSelState).2 ∧
    Effect.serverWireframeOff 103 ∉ (handleMouseMove sceneNodes demoStore [101] demoSelState).2 :=
  C7_selection_precedence sceneNodes demoStore [101] demoSelState 103 rfl

theorem DCStateExt (u v : DCState)
    (h1 : u.hoveredRack = v.hoveredRack) (h2 : u.hoveredServer = v.hoveredServer)
    (h3 : u.selectedServer = v.selectedServer) (h4 : u.wireframe = v.wireframe)
    (h5 : u.opacity = v.opacity) (h6 : u.lightColor = v.lightColor)
    (h7 : u.uniformTemp = v.uniformTemp) (h8 : u.panel = v.panel) : u = v := by
  cases u
  cases v
  simp_all

theorem hoverResets_fst_eq (nodes : List SceneNode) (s : DCState) :
    (hoverResets nodes s).1 =
      { s with
        opacity := fun i =>
          if s.hoveredRack.bind (rackCaseOf nodes) = some i then 1 else s.opacity i,
        wireframe := fun i =>
          if s.hoveredServer = some i ∧ s.selectedServer ≠ some i then false
          else s.wireframe i } := by
  cases hs2 : s.hoveredServer with
  | none =>
    cases hr : s.hoveredRack with
    | none =>
      simp only [hoverResets, hr, hs2]
      refine DCStateExt _ _ hr hs2 rfl ?_ ?_ rfl rfl rfl
      · funext i
        simp
      · funext i
        simp
    | some g =>
      cases hrc2 : rackCaseOf nodes g with
      | none =>
        simp only [hoverResets, hr, hrc2, hs2]
        refine DCStateExt _ _ hr hs2 rfl ?_ ?_ rfl rfl rfl
        · funext i
          simp
        · funext i
          simp [hrc2]
      | some c =>
        simp only [hoverResets, hr, hrc2, hs2]
        refine DCStateExt _ _ rfl rfl rfl ?_ ?_ rfl rfl rfl
        · funext i
          simp
        · funext i
          by_cases hic : i = c
          · subst hic
            simp [hrc2]
          · have hic2 : ¬(c = i) := fun hcon => hic hcon.symm
            simp [hrc2, hic, hic2]
  | some m =>
    by_cases hc : s.selectedServer ≠ some m
    · cases hr : s.hoveredRack with
      | none =>
        simp only [hoverResets, hr, hs2, if_pos hc]
        refine DCStateExt _ _ rfl rfl rfl ?_ ?_ rfl rfl rfl
        · funext i
          by_cases him : i = m
          · subst him
            simp [hc]
          · have him2 : ¬(m = i) := fun hcon => him hcon.symm
            simp [him, him2]
        · funext i
          simp
      | some g =>
        cases hrc2 : rackCaseOf nodes g with
        | none =>
          simp only [hoverResets, hr, hrc2, hs2, if_pos hc]
          refine DCStateExt _ _ rfl rfl rfl ?_ ?_ rfl rfl rfl
          · funext i
            by_cases him : i = m
            · subst him
              simp [hc]
            · have him2 : ¬(m = i) := fun hcon => him hcon.symm
              simp [him, him2]
          · funext i
            simp [hrc2]
        | some c =>
          simp only [hoverResets, hr, hrc2, hs2, if_pos hc]
          refine DCStateExt _ _ rfl rfl rfl ?_ ?_ rfl rfl rfl
          · funext i
            by_cases him : i = m
            · subst him
              simp [hc]
            · have him2 : ¬(m = i) := fun hcon => him hcon.symm
              simp [him, him2]
          · funext i
            by_cases hic : i = c
            · subst hic
              simp [hrc2]
            · have hic2 : ¬(c = i) := fun hcon => hic hcon.symm
              simp [hrc2, hic, hic2]
    · cases hr : s.hoveredRack with
      | none =>
        simp only [hoverResets, hr, hs2, if_neg hc]
        refine DCStateExt _ _ hr hs2 rfl ?_ ?_ rfl rfl rfl
        · funext i
          by_cases him : i = m
          · subst him
            simp [hc]
          · have him2 : ¬(m = i) := fun hcon => him hcon.symm
            simp [him2]
        · funext i
          simp
      | some g =>
        cases hrc2 : rackCaseOf nodes g with
        | none =>
          simp only [hoverResets, hr, hrc2, hs2, if_neg hc]
          refine DCStateExt _ _ hr hs2 rfl ?_ ?_ rfl rfl rfl
          · funext i
            by_cases him : i = m
            · subst him
              simp [hc]
            · have him2 : ¬(m = i) := fun hcon => him hcon.symm
              simp [him2]
          · funext i
            simp [hrc2]
        | some c =>
          simp only [hoverResets, hr, hrc2, hs2, if_neg hc]
          refine DCStateExt _ _ rfl rfl rfl ?_ ?_ rfl rfl rfl
          · funext i
            by_cases him : i = m
            · subst him
              simp [hc]
            · have him2 : ¬(m = i) := fun hcon => him hcon.symm
              simp [him2]
          · funext i
            by_cases hic : i = c
            · subst hic
              simp [hrc2]
            · have hic2 : ¬(c = i) := fun hcon => hic hcon.symm
              simp [hrc2, hic, hic2]

theorem resets_fix (nodes : List SceneNode) (u : DCState)
    (hyp1 : ∀ g c, u.hoveredRack = some g → rackCaseOf nodes g = some c → u.opacity c = 1)
    (hyp2 : ∀ ms, u.hoveredServer = some ms → u.selectedServer ≠ some ms →
      u.wireframe ms = false) :
    (hoverResets nodes u).1 = u := by
  rw [hoverResets_fst_eq]
  refine DCStateExt _ _ rfl rfl rfl ?_ ?_ rfl rfl rfl
  · funext i
    try dsimp only
    by_cases hcnd : u.hoveredServer = some i ∧ u.selectedServer ≠ some i
    · rw [if_pos hcnd]
      exact (hyp2 i hcnd.1 hcnd.2).symm
    · rw [if_neg hcnd]
  · funext i
    try dsimp only
    by_cases hb : u.hoveredRack.bind (rackCaseOf nodes) = some i
    · rw [if_pos hb]
      cases hgr : u.hoveredRack with
      | none =>
        rw [hgr] at hb
        exact absurd hb (by simp)
      | some g =>
        rw [hgr] at hb
        simp only [Option.some_bind] at hb
        exact (hyp1 g i hgr hb).symm
    · rw [if_neg hb]

theorem resets_hyp1 (nodes : List SceneNode) (s : DCState) :
    ∀ g c, (hoverResets nodes s).1.hoveredRack = some g → rackCaseOf nodes g = some c →
      (hoverResets nodes s).1.opacity c = 1 := by
  intro g c hg hc
  rw [hoverResets_fst_eq] at hg ⊢
  have hg2 : s.hoveredRack = some g := hg
  have hb : s.hoveredRack.bind (rackCaseOf nodes) = some c := by
    rw [hg2]
    simpa using hc
  show (if s.hoveredRack.bind (rackCaseOf nodes) = some c then (1:ℚ) else s.opacity c) = 1
  rw [if_pos hb]

theorem resets_hyp2 (nodes : List SceneNode) (s : DCState) :
    ∀ ms, (hoverResets nodes s).1.hoveredServer = some ms →
      (hoverResets nodes s).1.selectedServer ≠ some ms →
      (hoverResets nodes s).1.wireframe ms = false := by
  intro ms hms hsel
  rw [hoverResets_fst_eq] at hms hsel ⊢
  have hms2 : s.hoveredServer = some ms := hms
  have hsel2 : s.selectedServer ≠ some ms := hsel
  show (if s.hoveredServer = some ms ∧ s.selectedServer ≠ some ms then false
        else s.wireframe ms) = false
  rw [if_pos ⟨hms2, hsel2⟩]

theorem rack_parent_case (h : Nat) (tn : SceneNode)
    (hpick : pickableMove sceneNodes h = true)
    (hg : sceneNodes.get? (walkTarget sceneNodes h) = some tn)
    (hrc : tn.isRackCase = true) :
    ∃ rp, tn.parent = some rp ∧
      rackCaseOf sceneNodes rp = some (walkTarget sceneNodes h) := by
  have hlt : h < 388 := sceneNodes_length ▸ pickableMove_lt sceneNodes h hpick
  have hc := scene_rack_walk_check h hlt
  simp only [rackWalkCheck, hpick, hg, hrc, Bool.not_true, Bool.false_or] at hc
  cases hpar : tn.parent with
  | none =>
    rw [hpar] at hc
    exact absurd hc (by simp)
  | some rp =>
    rw [hpar] at hc
    exact ⟨rp, rfl, by simpa using hc⟩

theorem hover_apply_idem (store : List ServerData) (h : Nat) (u : DCState)
    (hyp1 : ∀ g c, u.hoveredRack = some g → rackCaseOf sceneNodes g = some c →
      u.opacity c = 1)
    (hyp2 : ∀ ms, u.hoveredServer = some ms → u.selectedServer ≠ some ms →
      u.wireframe ms = false)
    (hpick : pickableMove sceneNodes h = true) :
    (hoverApply sceneNodes store h
        (hoverResets sceneNodes (hoverApply sceneNodes store h u).1).1).1
      = (hoverApply sceneNodes store h u).1 := by
  cases hg : sceneNodes.get? (walkTarget sceneNodes h) with
  | none =>
    simp only [hoverApply, hg]
    exact resets_fix sceneNodes u hyp1 hyp2
  | some tn =>
    by_cases hrc : tn.isRackCase = true
    · obtain ⟨rp, hpar, hcase⟩ := rack_parent_case h tn hpick hg hrc
      cases hri : tn.parent.bind (fun rp2 => (sceneNodes.get? rp2).bind SceneNode.rackIndex) with
      | some ri =>
        simp only [hoverApply, hg, if_pos hrc, hri]
        rw [hoverResets_fst_eq]
        try dsimp only
        simp only [hpar, Option.some_bind, hcase]
        refine DCStateExt _ _ rfl rfl rfl ?_ ?_ rfl rfl rfl
        · funext i
          try dsimp only
          by_cases hcnd : u.hoveredServer = some i ∧ u.selectedServer ≠ some i
          · rw [if_pos hcnd]
            exact (hyp2 i hcnd.1 hcnd.2).symm
          · rw [if_neg hcnd]
        · funext i
          try dsimp only
          by_cases hit : i = walkTarget sceneNodes h
          · simp [hit]
          · have hit2 : ¬(walkTarget sceneNodes h = i) := fun hcon => hit hcon.symm
            simp [hit, hit2]
      | none =>
        simp only [hoverApply, hg, if_pos hrc, hri]
        rw [hoverResets_fst_eq]
        try dsimp only
        simp only [hpar, Option.some_bind, hcase]
        refine DCStateExt _ _ rfl rfl rfl ?_ ?_ rfl rfl rfl
        · funext i
          try dsimp only
          by_cases hcnd : u.hoveredServer = some i ∧ u.selectedServer ≠ some i
          · rw [if_pos hcnd]
            exact (hyp2 i hcnd.1 hcnd.2).symm
          · rw [if_neg hcnd]
        · funext i
          try dsimp only
          by_cases hit : i = walkTarget sceneNodes h
          · simp [hit]
          · have hit2 : ¬(walkTarget sceneNodes h = i) := fun hcon => hit hcon.symm
            simp [hit, hit2]
    · cases hdi : tn.dataId with
      | none =>
        simp only [hoverApply, hg, if_neg hrc, hdi]
        exact resets_fix sceneNodes u hyp1 hyp2
      | some id =>
        by_cases hcnd : u.selectedServer ≠ some (walkTarget sceneNodes h)
        · cases hsd : getServerData id store with
          | some d =>
            simp only [hoverApply, hg, if_neg hrc, hdi, hsd]
            try dsimp only
            rw [if_pos hcnd]
            rw [hoverResets_fst_eq]
            try dsimp only
            rw [if_pos hcnd]
            refine DCStateExt _ _ rfl rfl rfl ?_ ?_ rfl rfl rfl
            · funext i
              try dsimp only
              by_cases hit : i = walkTarget sceneNodes h
              · simp [hit]
              · have hit2 : ¬(walkTarget sceneNodes h = i) := fun hcon => hit hcon.symm
                simp [hit, hit2]
            · funext i
              try dsimp only
              by_cases hb : u.hoveredRack.bind (rackCaseOf sceneNodes) = some i
              · rw [if_pos hb]
                cases hgr : u.hoveredRack with
                | none =>
                  rw [hgr] at hb
                  exact absurd hb (by simp)
                | some g =>
                  rw [hgr] at hb
                  simp only [Option.some_bind] at hb
                  exact (hyp1 g i hgr hb).symm
              · rw [if_neg hb]
          | none =>
            simp only [hoverApply, hg, if_neg hrc, hdi, hsd]
            try dsimp only
            rw [if_pos hcnd]
            rw [hoverResets_fst_eq]
            try dsimp only
            rw [if_pos hcnd]
            refine DCStateExt _ _ rfl rfl rfl ?_ ?_ rfl rfl rfl
            · funext i
              try dsimp only
              by_cases hit : i = walkTarget sceneNodes h
              · simp [hit]
              · have hit2 : ¬(walkTarget sceneNodes h = i) := fun hcon => hit hcon.symm
                simp [hit, hit2]
            · funext i
              try dsimp only
              by_cases hb : u.hoveredRack.bind (rackCaseOf sceneNodes) = some i
              · rw [if_pos hb]
                cases hgr : u.hoveredRack with
                | none =>
                  rw [hgr] at hb
                  exact absurd hb (by simp)
                | some g =>
                  rw [hgr] at hb
                  simp only [Option.some_bind] at hb
                  exact (hyp1 g i hgr hb).symm
              · rw [if_neg hb]
        · have hsel : u.selectedServer = some (walkTarget sceneNodes h) := not_not.mp hcnd
          cases hsd : getServerData id store with
          | some d =>
            simp only [hoverApply, hg, if_neg hrc, hdi, hsd]
            try dsimp only
            rw [if_neg hcnd]
            rw [hoverResets_fst_eq]
            try dsimp only
            rw [if_neg hcnd]
            refine DCStateExt _ _ rfl rfl rfl ?_ ?_ rfl rfl rfl
            · funext i
              try dsimp only
              by_cases hit : i = walkTarget sceneNodes h
              · subst hit
                simp [hsel]
              · have hit2 : ¬(walkTarget sceneNodes h = i) := fun hcon => hit hcon.symm
                simp [hit2]
            · funext i
              try dsimp only
              by_cases hb : u.hoveredRack.bind (rackCaseOf sceneNodes) = some i
              · rw [if_pos hb]
                cases hgr : u.hoveredRack with
                | none =>
                  rw [hgr] at hb
                  exact absurd hb (by simp)
                | some g =>
                  rw [hgr] at hb
                  simp only [Option.some_bind] at hb
                  exact (hyp1 g i hgr hb).symm
              · rw [if_neg hb]
          | none =>
            simp only [hoverApply, hg, if_neg hrc, hdi, hsd]
            try dsimp only
            rw [if_neg hcnd]
            rw [hoverResets_fst_eq]
            try dsimp only
            rw [if_neg hcnd]
            refine DCStateExt _ _ rfl rfl rfl ?_ ?_ rfl rfl rfl
            · funext i
              try dsimp only
              by_cases hit : i = walkTarget sceneNodes h
              · subst hit
                simp [hsel]
              · have hit2 : ¬(walkTarget sceneNodes h = i) := fun hcon => hit hcon.symm
                simp [hit2]
            · funext i
              try dsimp only
              by_cases hb : u.hoveredRack.bind (rackCaseOf sceneNodes) = some i
              · rw [if_pos hb]
                cases hgr : u.hoveredRack with
                | none =>
                  rw [hgr] at hb
                  exact absurd hb (by simp)
                | some g =>
                  rw [hgr] at hb
                  simp only [Option.some_bind] at hb
                  exact (hyp1 g i hgr hb).symm
              · rw [if_neg hb]

/-- C6 (amended): processing the same pointer-move event twice in a row is
idempotent at the state level — the second event leaves the whole interaction
and material state exactly as the first left it; however (see the
counterexample) the handler clears and re-applies the hover emphasis on every
event, so the enter effect fires once per event rather than exactly once for
the pair. -/
theorem C6_hover_idempotent (store : List ServerData) (ray : List Nat) (s : DCState) :
    (handleMouseMove sceneNodes store ray (handleMouseMove sceneNodes store ray s).1).1
      = (handleMouseMove sceneNodes store ray s).1 := by
  cases hh : (ray.filter fun i => pickableMove sceneNodes i).head? with
  | none =>
    simp only [handleMouseMove, hh]
    rfl
  | some h =>
    have hmem : h ∈ ray.filter (fun i => pickableMove sceneNodes i) := by
      cases hfl : ray.filter (fun i => pickableMove sceneNodes i) with
      | nil =>
        rw [hfl] at hh
        exact absurd hh (by simp)
      | cons x xs =>
        rw [hfl] at hh
        simp only [List.head?_cons, Option.some.injEq] at hh
        rw [hh]
        exact List.mem_cons_self h xs
    have hpick : pickableMove sceneNodes h = true := (List.mem_filter.mp hmem).2
    simp only [handleMouseMove, hh]
    exact hover_apply_idem store h (hoverResets sceneNodes s).1
      (resets_hyp1 sceneNodes s) (resets_hyp2 sceneNodes s) hpick

/-- C6 counterexample: hovering the same server mesh twice in a row (the
rack0-server0 body, node 103, which resolves to that server both times) fires
the wireframe enter effect in both events — two enter effects for two
consecutive identical events, not one — and the second event also re-fires a
leave (wireframe off) on the same server; the handler has no
`target == hoveredTarget` early-out. -/
theorem C6_hover_counterexample :
    resolveMove sceneNodes 103 = InteractionTarget.server "rack0-server0" ∧
    ((handleMouseMove sceneNodes demoStore [103] initState).2 ++
     (handleMouseMove sceneNodes demoStore [103]
        (handleMouseMove sceneNodes demoStore [103] initState).1).2).count
      (Effect.serverEnter 103) = 2 ∧
    Effect.serverWireframeOff 103 ∈
      (handleMouseMove sceneNodes demoStore [103]
        (handleMouseMove sceneNodes demoStore [103] initState).1).2 :=
  ⟨by decide, by decide, by decide⟩

theorem C8_click_transitions_witness :
    ∃ d, getServerData "rack0-server0" demoStore = some d ∧
      (handleClick sceneNodes demoStore [103] initState).1.selectedServer = some 103 ∧
      (handleClick sceneNodes demoStore [103] initState).1.wireframe 103 = true ∧
      (handleClick sceneNodes demoStore [103] initState).1.panel
        = some (PanelView.serverView "rack0-server0") ∧
      Effect.selectOn 103 ∈ (handleClick sceneNodes demoStore [103] initState).2 := by
  obtain ⟨d, hd⟩ : ∃ d, getServerData "rack0-server0" demoStore = some d := ⟨_, rfl⟩
  have key := ((C8_click_transitions sceneNodes demoStore [103] initState).2 103
    (by decide)).2 "rack0-server0" (by decide) d hd
  exact ⟨d, hd, key.1, key.2.1, key.2.2.1, key.2.2.2.1⟩

end IdcNode
